import Mathlib

/-
Verification of the Lagrangian-parcel CPO integrator
(src/specfabpy/integrator.py) against its specification.

The integrator advances a complex coefficient vector (truncated ODF
expansion) by explicit forward-Euler steps under a constant mode of
deformation.  Machine floats (numpy float64 / complex64) are modelled by
ℝ / ℂ; numpy arrays of shape (Nt+1, nlm_len) by functions
Fin (Nt+1) → Fin nlm_len → ℂ; Python None by Option; raised Python
exceptions by Except.error.  The Python call mutates the caller's mode
dictionary in place (mod['T'] = 1 when absent); the post-call descriptor
is therefore part of the modelled result (field modFinal).
-/

noncomputable section

/-- 3x3 real tensors: velocity gradient, strain rate, spin, deformation gradient. -/
abbrev Mat3 := Matrix (Fin 3) (Fin 3) ℝ

/-- Frobenius norm of a 3x3 tensor, as computed by `np.linalg.norm` on a 2-D array. -/
def frobNorm (D : Mat3) : ℝ := Real.sqrt (∑ i, ∑ j, (D i j) ^ 2)

/-- Modelled from the spec: the external fabric-physics library `sf` is not part of
this repository's sources; per the spec (sections 1 and 6) its interface is a fixed
contract consumed opaquely: the truncation degree `Lcap`, per-mode kinematic
primitives, the strain-rate/spin decomposition, the angular-Laplacian matrix query
`Lmat`, and the four matrix-valued physical-operator constructors
(`M_REG`, `M_CDRX`, `M_LROT`, `M_DDRX`).  The coefficient length is
`(Lcap+1)(Lcap+2)/2` (spec section 8). -/
structure SpecFab where
  Lcap : ℕ
  simpleshear_gamma_to_t : ℝ → ℝ → ℝ
  simpleshear_F : ℕ → ℝ → ℝ → Mat3
  simpleshear_ugrad : ℕ → ℝ → Mat3
  pureshear_strainii_to_t : ℝ → ℝ → ℝ
  pureshear_F : ℕ → ℝ → ℝ → ℝ → Mat3
  pureshear_ugrad : ℕ → ℝ → ℝ → Mat3
  ugrad_to_D_and_W : Mat3 → Mat3 × Mat3
  M_REG : (Fin ((Lcap + 1) * (Lcap + 2) / 2) → ℂ) → Mat3 →
    Matrix (Fin ((Lcap + 1) * (Lcap + 2) / 2)) (Fin ((Lcap + 1) * (Lcap + 2) / 2)) ℂ
  M_CDRX : (Fin ((Lcap + 1) * (Lcap + 2) / 2) → ℂ) →
    Matrix (Fin ((Lcap + 1) * (Lcap + 2) / 2)) (Fin ((Lcap + 1) * (Lcap + 2) / 2)) ℂ
  M_LROT : (Fin ((Lcap + 1) * (Lcap + 2) / 2) → ℂ) → Mat3 → Mat3 → ℝ → ℝ →
    Matrix (Fin ((Lcap + 1) * (Lcap + 2) / 2)) (Fin ((Lcap + 1) * (Lcap + 2) / 2)) ℂ
  M_DDRX : (Fin ((Lcap + 1) * (Lcap + 2) / 2) → ℂ) → Mat3 →
    Matrix (Fin ((Lcap + 1) * (Lcap + 2) / 2)) (Fin ((Lcap + 1) * (Lcap + 2) / 2)) ℂ
  Lmat : (Fin ((Lcap + 1) * (Lcap + 2) / 2) → ℂ) →
    Matrix (Fin ((Lcap + 1) * (Lcap + 2) / 2)) (Fin ((Lcap + 1) * (Lcap + 2) / 2)) ℂ

/-- Modelled from the spec: the library's coefficient-vector-length query
`sf.nlm_len()` (integrator.py line 44); spec section 8 fixes
`nlm_len == (L+1)(L+2)/2` for the truncation degree `L`. -/
abbrev SpecFab.nlm_len (sf : SpecFab) : ℕ := (sf.Lcap + 1) * (sf.Lcap + 2) / 2

/-- A coefficient (state) vector: one row of the `nlm` history array. -/
abbrev CVec (sf : SpecFab) := Fin sf.nlm_len → ℂ

/-- A complex `nlm_len × nlm_len` evolution-operator matrix. -/
abbrev CMat (sf : SpecFab) := Matrix (Fin sf.nlm_len) (Fin sf.nlm_len) ℂ

/-- The mode-of-deformation descriptor: the Python dict `mod`.  `type` is the
required tag; `plane` is read in the simpleshear branch, `axis` and `r` in the
pureshear branch; `T` is the optional characteristic time scale. -/
structure Mode where
  type : String
  plane : ℕ
  axis : ℕ
  r : ℝ
  T : Option ℝ

/-- The Python exceptions the integrator can raise. -/
inductive IntegratorError where
  | exception : String → IntegratorError
  | valueError : String → IntegratorError
  | typeError : String → IntegratorError

/-- Lattice-rotation contribution (integrator.py line 62):
`M_LROT = sf.M_LROT(nlm_dummy, D, W, iota, zeta) if iota is not None else M_zero`. -/
def lrotOp (sf : SpecFab) (dummy : CVec sf) (D W : Mat3) (iota : Option ℝ) (zeta : ℝ) :
    CMat sf :=
  match iota with
  | some i => sf.M_LROT dummy D W i zeta
  | none => 0

/-- CDRX (grain-boundary-rotation recrystallization) contribution (line 59):
`M_CDRX = Lambda*sf.M_CDRX(nlm_dummy) if Lambda is not None else M_zero`. -/
def cdrxOp (sf : SpecFab) (dummy : CVec sf) (Lambda : Option ℝ) : CMat sf :=
  match Lambda with
  | some l => (l : ℂ) • sf.M_CDRX dummy
  | none => 0

/-- DDRX (migration recrystallization) contribution added inside the loop (line 70):
`M += Gamma0*sf.M_DDRX(nlm_prev, S) if Gamma0 is not None else M_zero`. -/
def ddrxOp (sf : SpecFab) (prev : CVec sf) (S : Mat3) (Gamma0 : Option ℝ) : CMat sf :=
  match Gamma0 with
  | some g => (g : ℂ) • sf.M_DDRX prev S
  | none => 0

/-- `M_REG_custom(nu, expo, D, sf)` (integrator.py lines 79-92).  The body computes
`L = sf.Lcap`, `nlm_len = int((L+1)*(L+2)/2)` (the length carried by `CVec`),
a zero dummy state, the normalized Laplacian `sf.Lmat(nlm_dummy)/(L*(L+1))`,
`ratemag = nu*np.linalg.norm(D)` and returns `-ratemag*np.power(np.abs(L), expo)`.
When the caller passes `nu = None`, `nu*np.linalg.norm(D)` raises a Python
TypeError (None multiplied by a float), modelled as `Except.error`. -/
def M_REG_custom (sf : SpecFab) (nu : Option ℝ) (expo : ℝ) (D : Mat3) :
    Except IntegratorError (CMat sf) :=
  match nu with
  | none => .error (.typeError "unsupported operand type(s) for *: NoneType and float")
  | some n =>
    let L := sf.Lcap
    let nlm_dummy : CVec sf := 0
    let Lnorm : CMat sf := fun i j => sf.Lmat nlm_dummy i j / ((L * (L + 1) : ℕ) : ℂ)
    let ratemag : ℝ := n * frobNorm D
    .ok (fun i j => ((-ratemag * (Complex.abs (Lnorm i j)) ^ expo : ℝ) : ℂ))

/-- Regularization selection (integrator.py lines 55-56):
`if regexpo is None: M_REG = nu*sf.M_REG(nlm_dummy, D) if nu is not None else M_zero`
`else:               M_REG = M_REG_custom(nu, regexpo, D, sf)`. -/
def regOperator (sf : SpecFab) (nu regexpo : Option ℝ) (dummy : CVec sf) (D : Mat3) :
    Except IntegratorError (CMat sf) :=
  match regexpo with
  | none =>
    .ok (match nu with
         | some n => (n : ℂ) • sf.M_REG dummy D
         | none => 0)
  | some expo => M_REG_custom sf nu expo D

/-- The full per-step operator (lines 69-70): `M = M_LROT + M_CDRX + M_REG` then
`M += Gamma0*sf.M_DDRX(nlm_prev, S) if Gamma0 is not None else M_zero`. -/
def stepOperator (sf : SpecFab) (constM : CMat sf) (Gamma0 : Option ℝ) (S : Mat3)
    (prev : CVec sf) : CMat sf :=
  constM + ddrxOp sf prev S Gamma0

/-- One forward-Euler step (line 72): `nlm[nt,:] = nlm_prev + dt*np.matmul(M, nlm_prev)`. -/
def eulerStep (sf : SpecFab) (constM : CMat sf) (Gamma0 : Option ℝ) (S : Mat3) (dt : ℝ)
    (prev : CVec sf) : CVec sf :=
  prev + (dt : ℂ) • Matrix.mulVec (stepOperator sf constM Gamma0 S prev) prev

/-- The coefficient history: row `t` of the `nlm` array, produced by the loop over
`nt in 1..Nt` from row 0. -/
def nlmHist (sf : SpecFab) (constM : CMat sf) (Gamma0 : Option ℝ) (S : Mat3) (dt : ℝ)
    (nlm0 : CVec sf) : ℕ → CVec sf
  | 0 => nlm0
  | t + 1 => eulerStep sf constM Gamma0 S dt (nlmHist sf constM Gamma0 S dt nlm0 t)

/-- The isotropic initial row (line 46): all coefficients zero except
`nlm[0,0] = 1/np.sqrt(4*np.pi)`. -/
def isotropic (sf : SpecFab) : CVec sf :=
  fun i => if (i : ℕ) = 0 then ((1 / Real.sqrt (4 * Real.pi) : ℝ) : ℂ) else 0

/-- The values produced by a successful `lagrangianparcel` call: the returned tuple
`(nlm, F, time, ugrad)` plus the caller's mode dict after the call (the function
writes `mod['T'] = 1` in place when the key is absent). -/
structure ParcelResult (sf : SpecFab) (Nt : ℕ) where
  nlm : Fin (Nt + 1) → CVec sf
  F : Fin (Nt + 1) → Mat3
  time : Fin (Nt + 1) → ℝ
  ugrad : Mat3
  modFinal : Mode

/-- The mode-independent tail of `lagrangianparcel` (integrator.py lines 38-76):
strain-rate/spin decomposition, coaxial stress proxy `S = D.copy()`, time stamps
`time = dt*np.arange(Nt+1)`, state initialization (line 44-48,
`nlm_dummy = nlm[0,:].copy()`), steady operators (lines 52-62) and the Euler
loop (lines 66-72). -/
def integrate (sf : SpecFab) (mod : Mode) (Nt : ℕ) (dt : ℝ) (F : Fin (Nt + 1) → Mat3)
    (ugrad : Mat3) (nlm0Opt : Option (CVec sf)) (iota : Option ℝ) (zeta : ℝ)
    (Lambda Gamma0 nu regexpo : Option ℝ) :
    Except IntegratorError (ParcelResult sf Nt) :=
  Except.map
    (fun Mreg =>
      { nlm := fun t =>
          nlmHist sf
            (lrotOp sf (nlm0Opt.getD (isotropic sf)) (sf.ugrad_to_D_and_W ugrad).1
                (sf.ugrad_to_D_and_W ugrad).2 iota zeta
              + cdrxOp sf (nlm0Opt.getD (isotropic sf)) Lambda + Mreg)
            Gamma0 (sf.ugrad_to_D_and_W ugrad).1 dt (nlm0Opt.getD (isotropic sf)) (t : ℕ)
        F := F
        time := fun k => dt * ((k : ℕ) : ℝ)
        ugrad := ugrad
        modFinal := { mod with T := some (mod.T.getD 1) } })
    (regOperator sf nu regexpo (nlm0Opt.getD (isotropic sf)) (sf.ugrad_to_D_and_W ugrad).1)

/-- `lagrangianparcel` (integrator.py lines 6-76).  `mod['T'] = 1` when the key is
absent; then the mode dispatch: simpleshear/ss and pureshear/ps derive
`dt = strain-to-time/Nt` when `dt` is None and build the deformation-gradient
series and constant velocity gradient; rigidrotation/rr raises
`Exception('type="rigidrotation" not yet supported')`; any other tag raises
`ValueError('Mode of deformation type="%s" not supported' % mod['type'])`.
`verbose` only drives the progress bar and `apply_bounds` is never read, so
neither enters the computation. -/
def lagrangianparcel (sf : SpecFab) (mod : Mode) (strain_target : ℝ) (Nt : ℕ)
    (dtOpt : Option ℝ) (nlm0Opt : Option (CVec sf)) (verbose : Bool)
    (iota : Option ℝ) (zeta : ℝ) (Lambda Gamma0 : Option ℝ)
    (nu regexpo : Option ℝ) (apply_bounds : Bool) :
    Except IntegratorError (ParcelResult sf Nt) :=
  let T : ℝ := mod.T.getD 1
  if mod.type = "simpleshear" ∨ mod.type = "ss" then
    let dt := dtOpt.getD (sf.simpleshear_gamma_to_t strain_target T / (Nt : ℝ))
    integrate sf mod Nt dt (fun k => sf.simpleshear_F mod.plane T (dt * ((k : ℕ) : ℝ)))
      (sf.simpleshear_ugrad mod.plane T) nlm0Opt iota zeta Lambda Gamma0 nu regexpo
  else if mod.type = "pureshear" ∨ mod.type = "ps" then
    let dt := dtOpt.getD (sf.pureshear_strainii_to_t strain_target T / (Nt : ℝ))
    integrate sf mod Nt dt (fun k => sf.pureshear_F mod.axis mod.r T (dt * ((k : ℕ) : ℝ)))
      (sf.pureshear_ugrad mod.axis mod.r T) nlm0Opt iota zeta Lambda Gamma0 nu regexpo
  else if mod.type = "rigidrotation" ∨ mod.type = "rr" then
    .error (.exception "type=\"rigidrotation\" not yet supported")
  else
    .error (.valueError ("Mode of deformation type=\"" ++ mod.type ++ "\" not supported"))

/-- Modelled from the spec (section 4.3): the library's constant-operator
constructors receive a same-shaped dummy state purely to infer array
shape/dtype; their numerical values do not depend on that argument. -/
def StateIndependent (sf : SpecFab) : Prop :=
  (∀ v w D, sf.M_REG v D = sf.M_REG w D) ∧
  (∀ v w, sf.M_CDRX v = sf.M_CDRX w) ∧
  (∀ v w D W i z, sf.M_LROT v D W i z = sf.M_LROT w D W i z)

/-- A trivial concrete library instance (truncation degree 0, all collaborator
functions constant) used to instantiate theorems at concrete inputs. -/
def sf0 : SpecFab where
  Lcap := 0
  simpleshear_gamma_to_t := fun _ _ => 1
  simpleshear_F := fun _ _ _ => 0
  simpleshear_ugrad := fun _ _ => 0
  pureshear_strainii_to_t := fun _ _ => 1
  pureshear_F := fun _ _ _ _ => 0
  pureshear_ugrad := fun _ _ _ => 0
  ugrad_to_D_and_W := fun u => (u, u)
  M_REG := fun _ _ => 0
  M_CDRX := fun _ => 0
  M_LROT := fun _ _ _ _ _ => 0
  M_DDRX := fun _ _ => 0
  Lmat := fun _ => 0

/-- A concrete simple-shear mode descriptor. -/
def modSS : Mode := { type := "ss", plane := 0, axis := 0, r := 1, T := some 1 }

/-- A concrete rigid-rotation mode descriptor using the short tag. -/
def modRR : Mode := { type := "rr", plane := 0, axis := 0, r := 1, T := some 1 }

/-- A concrete descriptor with an unsupported mode tag. -/
def modBad : Mode := { type := "bogus", plane := 0, axis := 0, r := 1, T := some 1 }

/-- A concrete simple-shear descriptor with no characteristic time scale `T`. -/
def modNoT : Mode := { type := "ss", plane := 0, axis := 0, r := 1, T := none }

/-- The result of `lagrangianparcel sf0 modSS 1 1 (some 1) none true none 0 none
none none none false`, written out explicitly. -/
def res0 : ParcelResult sf0 1 :=
  { nlm := fun t =>
      nlmHist sf0 (lrotOp sf0 (isotropic sf0) 0 0 none 0 + cdrxOp sf0 (isotropic sf0) none + 0)
        none 0 1 (isotropic sf0) (t : ℕ)
    F := fun _ => 0
    time := fun k => 1 * ((k : ℕ) : ℝ)
    ugrad := 0
    modFinal := modSS }

theorem regOperator_none_none (sf : SpecFab) (dummy : CVec sf) (D : Mat3) :
    regOperator sf none none dummy D = Except.ok 0 := rfl

theorem regOperator_some_none (sf : SpecFab) (n : ℝ) (dummy : CVec sf) (D : Mat3) :
    regOperator sf (some n) none dummy D = Except.ok ((n : ℂ) • sf.M_REG dummy D) := rfl

theorem regOperator_customPath (sf : SpecFab) (nu : Option ℝ) (e : ℝ) (dummy : CVec sf)
    (D : Mat3) : regOperator sf nu (some e) dummy D = M_REG_custom sf nu e D := rfl

theorem regOperator_isOk (sf : SpecFab) (nu regexpo : Option ℝ) (dummy : CVec sf) (D : Mat3)
    (h : regexpo = none ∨ nu ≠ none) :
    ∃ M, regOperator sf nu regexpo dummy D = Except.ok M := by
  rcases h with h | h
  · subst h
    cases nu <;> exact ⟨_, rfl⟩
  · cases hn : nu with
    | none => exact absurd hn h
    | some n => cases regexpo <;> exact ⟨_, rfl⟩

theorem lagr_ss (sf : SpecFab) (mod : Mode) (st : ℝ) (Nt : ℕ) (dtOpt : Option ℝ)
    (nlm0Opt : Option (CVec sf)) (vb : Bool) (iota : Option ℝ) (zeta : ℝ)
    (Lambda Gamma0 nu regexpo : Option ℝ) (ab : Bool)
    (h : mod.type = "simpleshear" ∨ mod.type = "ss") :
    lagrangianparcel sf mod st Nt dtOpt nlm0Opt vb iota zeta Lambda Gamma0 nu regexpo ab =
      integrate sf mod Nt
        (dtOpt.getD (sf.simpleshear_gamma_to_t st (mod.T.getD 1) / (Nt : ℝ)))
        (fun k => sf.simpleshear_F mod.plane (mod.T.getD 1)
          ((dtOpt.getD (sf.simpleshear_gamma_to_t st (mod.T.getD 1) / (Nt : ℝ))) * ((k : ℕ) : ℝ)))
        (sf.simpleshear_ugrad mod.plane (mod.T.getD 1))
        nlm0Opt iota zeta Lambda Gamma0 nu regexpo := by
  unfold lagrangianparcel
  rw [if_pos h]

theorem lagr_ps (sf : SpecFab) (mod : Mode) (st : ℝ) (Nt : ℕ) (dtOpt : Option ℝ)
    (nlm0Opt : Option (CVec sf)) (vb : Bool) (iota : Option ℝ) (zeta : ℝ)
    (Lambda Gamma0 nu regexpo : Option ℝ) (ab : Bool)
    (h : mod.type = "pureshear" ∨ mod.type = "ps") :
    lagrangianparcel sf mod st Nt dtOpt nlm0Opt vb iota zeta Lambda Gamma0 nu regexpo ab =
      integrate sf mod Nt
        (dtOpt.getD (sf.pureshear_strainii_to_t st (mod.T.getD 1) / (Nt : ℝ)))
        (fun k => sf.pureshear_F mod.axis mod.r (mod.T.getD 1)
          ((dtOpt.getD (sf.pureshear_strainii_to_t st (mod.T.getD 1) / (Nt : ℝ))) * ((k : ℕ) : ℝ)))
        (sf.pureshear_ugrad mod.axis mod.r (mod.T.getD 1))
        nlm0Opt iota zeta Lambda Gamma0 nu regexpo := by
  unfold lagrangianparcel
  rw [if_neg, if_pos h]
  rcases h with h | h <;> simp [h]

theorem lagr_rr (sf : SpecFab) (mod : Mode) (st : ℝ) (Nt : ℕ) (dtOpt : Option ℝ)
    (nlm0Opt : Option (CVec sf)) (vb : Bool) (iota : Option ℝ) (zeta : ℝ)
    (Lambda Gamma0 nu regexpo : Option ℝ) (ab : Bool)
    (h : mod.type = "rigidrotation" ∨ mod.type = "rr") :
    lagrangianparcel sf mod st Nt dtOpt nlm0Opt vb iota zeta Lambda Gamma0 nu regexpo ab =
      Except.error (.exception "type=\"rigidrotation\" not yet supported") := by
  unfold lagrangianparcel
  rw [if_neg, if_neg, if_pos h] <;> rcases h with h | h <;> simp [h]

theorem lagr_unknown (sf : SpecFab) (mod : Mode) (st : ℝ) (Nt : ℕ) (dtOpt : Option ℝ)
    (nlm0Opt : Option (CVec sf)) (vb : Bool) (iota : Option ℝ) (zeta : ℝ)
    (Lambda Gamma0 nu regexpo : Option ℝ) (ab : Bool)
    (h1 : mod.type ≠ "simpleshear") (h2 : mod.type ≠ "ss")
    (h3 : mod.type ≠ "pureshear") (h4 : mod.type ≠ "ps")
    (h5 : mod.type ≠ "rigidrotation") (h6 : mod.type ≠ "rr") :
    lagrangianparcel sf mod st Nt dtOpt nlm0Opt vb iota zeta Lambda Gamma0 nu regexpo ab =
      Except.error (.valueError ("Mode of deformation type=\"" ++ mod.type ++ "\" not supported")) := by
  unfold lagrangianparcel
  rw [if_neg, if_neg, if_neg] <;> simp [h1, h2, h3, h4, h5, h6]

theorem integrate_ok (sf : SpecFab) (mod : Mode) (Nt : ℕ) (dt : ℝ) (F : Fin (Nt + 1) → Mat3)
    (ugrad : Mat3) (nlm0Opt : Option (CVec sf)) (iota : Option ℝ) (zeta : ℝ)
    (Lambda Gamma0 nu regexpo : Option ℝ) (Mreg : CMat sf)
    (h : regOperator sf nu regexpo (nlm0Opt.getD (isotropic sf))
          (sf.ugrad_to_D_and_W ugrad).1 = Except.ok Mreg) :
    integrate sf mod Nt dt F ugrad nlm0Opt iota zeta Lambda Gamma0 nu regexpo =
      Except.ok
        { nlm := fun t =>
            nlmHist sf
              (lrotOp sf (nlm0Opt.getD (isotropic sf)) (sf.ugrad_to_D_and_W ugrad).1
                  (sf.ugrad_to_D_and_W ugrad).2 iota zeta
                + cdrxOp sf (nlm0Opt.getD (isotropic sf)) Lambda + Mreg)
              Gamma0 (sf.ugrad_to_D_and_W ugrad).1 dt (nlm0Opt.getD (isotropic sf)) (t : ℕ)
          F := F
          time := fun k => dt * ((k : ℕ) : ℝ)
          ugrad := ugrad
          modFinal := { mod with T := some (mod.T.getD 1) } } := by
  unfold integrate
  rw [h]
  rfl

theorem nlmHist_zero (sf : SpecFab) (constM : CMat sf) (Gamma0 : Option ℝ) (S : Mat3)
    (dt : ℝ) (nlm0 : CVec sf) : nlmHist sf constM Gamma0 S dt nlm0 0 = nlm0 := rfl

theorem nlmHist_succ (sf : SpecFab) (constM : CMat sf) (Gamma0 : Option ℝ) (S : Mat3)
    (dt : ℝ) (nlm0 : CVec sf) (t : ℕ) :
    nlmHist sf constM Gamma0 S dt nlm0 (t + 1) =
      eulerStep sf constM Gamma0 S dt (nlmHist sf constM Gamma0 S dt nlm0 t) := rfl

theorem nlmHist_const_of_zero (sf : SpecFab) (constM : CMat sf) (S : Mat3) (dt : ℝ)
    (nlm0 : CVec sf) (hC : constM = 0) (t : ℕ) :
    nlmHist sf constM none S dt nlm0 t = nlm0 := by
  induction t with
  | zero => rfl
  | succ t ih =>
    rw [nlmHist_succ, ih]
    simp [eulerStep, stepOperator, ddrxOp, hC]

theorem lagr_isOk (sf : SpecFab) (mod : Mode) (st : ℝ) (Nt : ℕ) (dtOpt : Option ℝ)
    (nlm0Opt : Option (CVec sf)) (vb : Bool) (iota : Option ℝ) (zeta : ℝ)
    (Lambda Gamma0 nu regexpo : Option ℝ) (ab : Bool)
    (hmode : mod.type = "simpleshear" ∨ mod.type = "ss" ∨
             mod.type = "pureshear" ∨ mod.type = "ps")
    (hcompat : regexpo = none ∨ nu ≠ none) :
    ∃ res, lagrangianparcel sf mod st Nt dtOpt nlm0Opt vb iota zeta Lambda Gamma0
      nu regexpo ab = Except.ok res := by
  rcases hmode with h | h | h | h
  · rw [lagr_ss sf mod st Nt dtOpt nlm0Opt vb iota zeta Lambda Gamma0 nu regexpo ab (Or.inl h)]
    obtain ⟨M, hM⟩ := regOperator_isOk sf nu regexpo (nlm0Opt.getD (isotropic sf)) _ hcompat
    rw [integrate_ok sf mod Nt _ _ _ nlm0Opt iota zeta Lambda Gamma0 nu regexpo M hM]
    exact ⟨_, rfl⟩
  · rw [lagr_ss sf mod st Nt dtOpt nlm0Opt vb iota zeta Lambda Gamma0 nu regexpo ab (Or.inr h)]
    obtain ⟨M, hM⟩ := regOperator_isOk sf nu regexpo (nlm0Opt.getD (isotropic sf)) _ hcompat
    rw [integrate_ok sf mod Nt _ _ _ nlm0Opt iota zeta Lambda Gamma0 nu regexpo M hM]
    exact ⟨_, rfl⟩
  · rw [lagr_ps sf mod st Nt dtOpt nlm0Opt vb iota zeta Lambda Gamma0 nu regexpo ab (Or.inl h)]
    obtain ⟨M, hM⟩ := regOperator_isOk sf nu regexpo (nlm0Opt.getD (isotropic sf)) _ hcompat
    rw [integrate_ok sf mod Nt _ _ _ nlm0Opt iota zeta Lambda Gamma0 nu regexpo M hM]
    exact ⟨_, rfl⟩
  · rw [lagr_ps sf mod st Nt dtOpt nlm0Opt vb iota zeta Lambda Gamma0 nu regexpo ab (Or.inr h)]
    obtain ⟨M, hM⟩ := regOperator_isOk sf nu regexpo (nlm0Opt.getD (isotropic sf)) _ hcompat
    rw [integrate_ok sf mod Nt _ _ _ nlm0Opt iota zeta Lambda Gamma0 nu regexpo M hM]
    exact ⟨_, rfl⟩

theorem lagr_ok_elim (sf : SpecFab) (mod : Mode) (st : ℝ) (Nt : ℕ) (dtOpt : Option ℝ)
    (nlm0Opt : Option (CVec sf)) (vb : Bool) (iota : Option ℝ) (zeta : ℝ)
    (Lambda Gamma0 nu regexpo : Option ℝ) (ab : Bool) (res : ParcelResult sf Nt)
    (hok : lagrangianparcel sf mod st Nt dtOpt nlm0Opt vb iota zeta Lambda Gamma0
      nu regexpo ab = Except.ok res) :
    ∃ dt Mreg,
      regOperator sf nu regexpo (nlm0Opt.getD (isotropic sf))
          (sf.ugrad_to_D_and_W res.ugrad).1 = Except.ok Mreg ∧
      res.time = (fun k : Fin (Nt + 1) => dt * ((k : ℕ) : ℝ)) ∧
      res.nlm = (fun t : Fin (Nt + 1) =>
        nlmHist sf
          (lrotOp sf (nlm0Opt.getD (isotropic sf)) (sf.ugrad_to_D_and_W res.ugrad).1
              (sf.ugrad_to_D_and_W res.ugrad).2 iota zeta
            + cdrxOp sf (nlm0Opt.getD (isotropic sf)) Lambda + Mreg)
          Gamma0 (sf.ugrad_to_D_and_W res.ugrad).1 dt (nlm0Opt.getD (isotropic sf)) (t : ℕ)) ∧
      res.modFinal = { mod with T := some (mod.T.getD 1) } := by
  by_cases hss : mod.type = "simpleshear" ∨ mod.type = "ss"
  · rw [lagr_ss sf mod st Nt dtOpt nlm0Opt vb iota zeta Lambda Gamma0 nu regexpo ab hss] at hok
    rcases hreg : regOperator sf nu regexpo (nlm0Opt.getD (isotropic sf))
        (sf.ugrad_to_D_and_W (sf.simpleshear_ugrad mod.plane (mod.T.getD 1))).1 with e | M
    · unfold integrate at hok
      rw [hreg] at hok
      exact absurd hok (by simp [Except.map])
    · rw [integrate_ok sf mod Nt _ _ _ nlm0Opt iota zeta Lambda Gamma0 nu regexpo M hreg] at hok
      injection hok with hb
      subst hb
      exact ⟨_, M, hreg, rfl, rfl, rfl⟩
  · by_cases hps : mod.type = "pureshear" ∨ mod.type = "ps"
    · rw [lagr_ps sf mod st Nt dtOpt nlm0Opt vb iota zeta Lambda Gamma0 nu regexpo ab hps] at hok
      rcases hreg : regOperator sf nu regexpo (nlm0Opt.getD (isotropic sf))
          (sf.ugrad_to_D_and_W (sf.pureshear_ugrad mod.axis mod.r (mod.T.getD 1))).1 with e | M
      · unfold integrate at hok
        rw [hreg] at hok
        exact absurd hok (by simp [Except.map])
      · rw [integrate_ok sf mod Nt _ _ _ nlm0Opt iota zeta Lambda Gamma0 nu regexpo M hreg] at hok
        injection hok with hb
        subst hb
        exact ⟨_, M, hreg, rfl, rfl, rfl⟩
    · by_cases hrr : mod.type = "rigidrotation" ∨ mod.type = "rr"
      · rw [lagr_rr sf mod st Nt dtOpt nlm0Opt vb iota zeta Lambda Gamma0 nu regexpo ab hrr] at hok
        exact absurd hok (by simp)
      · push_neg at hss hps hrr
        rw [lagr_unknown sf mod st Nt dtOpt nlm0Opt vb iota zeta Lambda Gamma0 nu regexpo ab
          hss.1 hss.2 hps.1 hps.2 hrr.1 hrr.2] at hok
        exact absurd hok (by simp)

/-- C2: the regularization term is selected by a priority rule: with `regexpo`
absent it is `nu • sf.M_REG(dummy, D)` when `nu` is provided and the zero matrix
otherwise; with `regexpo` provided it is always the custom builder's result,
regardless of `nu`, and that result (for numeric `nu`) is
`-(nu*‖D‖_F) * |Lmat/(L*(L+1))|^regexpo` elementwise over the angular-Laplacian
matrix for `nlm_len = (L+1)(L+2)/2`. -/
theorem c2_regularization_priority (sf : SpecFab) :
    (∀ (n : ℝ) (dummy : CVec sf) (D : Mat3),
        regOperator sf (some n) none dummy D = Except.ok ((n : ℂ) • sf.M_REG dummy D)) ∧
    (∀ (dummy : CVec sf) (D : Mat3), regOperator sf none none dummy D = Except.ok 0) ∧
    (∀ (nu : Option ℝ) (e : ℝ) (dummy : CVec sf) (D : Mat3),
        regOperator sf nu (some e) dummy D = M_REG_custom sf nu e D) ∧
    (∀ (n e : ℝ) (D : Mat3),
        M_REG_custom sf (some n) e D = Except.ok (fun i j =>
          ((-(n * frobNorm D) *
              (Complex.abs (sf.Lmat 0 i j / ((sf.Lcap * (sf.Lcap + 1) : ℕ) : ℂ))) ^ e : ℝ) : ℂ))) ∧
    sf.nlm_len = (sf.Lcap + 1) * (sf.Lcap + 2) / 2 :=
  ⟨fun _ _ _ => rfl, fun _ _ => rfl, fun _ _ _ _ => rfl, fun _ _ _ => rfl, rfl⟩

/-- C10: two calls with identical inputs (including the same explicit initial
coefficient vector) return identical results, independently of the `verbose`
progress-reporting flag and of `apply_bounds`: neither enters the computation. -/
theorem c10_determinism_inert_flags (sf : SpecFab) (mod : Mode) (st : ℝ) (Nt : ℕ)
    (dtOpt : Option ℝ) (v : CVec sf) (iota : Option ℝ) (zeta : ℝ)
    (Lambda Gamma0 nu regexpo : Option ℝ) (vb1 vb2 ab1 ab2 : Bool) :
    lagrangianparcel sf mod st Nt dtOpt (some v) vb1 iota zeta Lambda Gamma0 nu regexpo ab1 =
    lagrangianparcel sf mod st Nt dtOpt (some v) vb2 iota zeta Lambda Gamma0 nu regexpo ab2 :=
  rfl

/-- C9: under the spec's contract that the library's constant-operator
constructors ignore their dummy-state argument, the three constant operator
contributions (and hence their sum, the constant part of the evolution operator,
evaluated once before the stepping loop) are independent of which same-shaped
dummy state is passed — in particular of the supplied initial coefficient
vector, which is what `lagrangianparcel` passes as `nlm_dummy`. -/
theorem c9_constant_ops_dummy_independent (sf : SpecFab) (h : StateIndependent sf)
    (d1 d2 : CVec sf) (D W : Mat3) (iota : Option ℝ) (zeta : ℝ)
    (Lambda nu regexpo : Option ℝ) :
    lrotOp sf d1 D W iota zeta = lrotOp sf d2 D W iota zeta ∧
    cdrxOp sf d1 Lambda = cdrxOp sf d2 Lambda ∧
    regOperator sf nu regexpo d1 D = regOperator sf nu regexpo d2 D ∧
    (∀ Mreg : CMat sf,
      lrotOp sf d1 D W iota zeta + cdrxOp sf d1 Lambda + Mreg =
      lrotOp sf d2 D W iota zeta + cdrxOp sf d2 Lambda + Mreg) := by
  obtain ⟨hreg, hcdrx, hlrot⟩ := h
  have h1 : lrotOp sf d1 D W iota zeta = lrotOp sf d2 D W iota zeta := by
    cases iota with
    | none => rfl
    | some i => exact hlrot d1 d2 D W i zeta
  have h2 : cdrxOp sf d1 Lambda = cdrxOp sf d2 Lambda := by
    cases Lambda with
    | none => rfl
    | some l => rw [cdrxOp, cdrxOp, hcdrx d1 d2]
  have h3 : regOperator sf nu regexpo d1 D = regOperator sf nu regexpo d2 D := by
    cases regexpo with
    | none =>
      cases nu with
      | none => rfl
      | some n => rw [regOperator, regOperator, hreg d1 d2 D]
    | some e => rfl
  exact ⟨h1, h2, h3, fun Mreg => by rw [h1, h2]⟩

/-- C9 witness: the independence instantiated at a concrete library and two
different dummy states. -/
theorem c9_witness :
    StateIndependent sf0 ∧
    (lrotOp sf0 0 0 0 (some 1) 0 = lrotOp sf0 (isotropic sf0) 0 0 (some 1) 0 ∧
     cdrxOp sf0 0 (some 1) = cdrxOp sf0 (isotropic sf0) (some 1) ∧
     regOperator sf0 (some 1) none 0 0 = regOperator sf0 (some 1) none (isotropic sf0) 0 ∧
     (∀ Mreg : CMat sf0,
       lrotOp sf0 0 0 0 (some 1) 0 + cdrxOp sf0 0 (some 1) + Mreg =
       lrotOp sf0 (isotropic sf0) 0 0 (some 1) 0 + cdrxOp sf0 (isotropic sf0) (some 1) + Mreg)) :=
  have hs : StateIndependent sf0 :=
    ⟨fun _ _ _ => rfl, fun _ _ => rfl, fun _ _ _ _ _ _ => rfl⟩
  ⟨hs, c9_constant_ops_dummy_independent sf0 hs 0 (isotropic sf0) 0 0 (some 1) 0
    (some 1) (some 1) none⟩

/-- C6 counterexample: selecting rigid rotation by its short tag "rr" raises the
unimplemented-feature error whose message is the fixed string
`type="rigidrotation" not yet supported`, which does not contain the offending
tag "rr"; the message therefore does not identify the tag the caller used. -/
theorem c6_counterexample :
    lagrangianparcel sf0 modRR 1 2 (some 1) none true none 0 none none none none false =
      Except.error (.exception "type=\"rigidrotation\" not yet supported") ∧
    ¬ List.IsInfix (String.toList "rr")
        (String.toList "type=\"rigidrotation\" not yet supported") :=
  ⟨rfl, by decide⟩

/-- C6 (amended): rigidrotation/rr raises the unimplemented-feature error with
the fixed message naming "rigidrotation" (not necessarily the literal tag used);
any tag outside the closed set raises a configuration error whose message
contains the offending tag; both errors are the call's entire result, so no
trajectory series, time array or coefficient history is produced and no
integration step runs. -/
theorem c6_mode_errors (sf : SpecFab) (mod : Mode) (st : ℝ) (Nt : ℕ) (dtOpt : Option ℝ)
    (nlm0Opt : Option (CVec sf)) (vb : Bool) (iota : Option ℝ) (zeta : ℝ)
    (Lambda Gamma0 nu regexpo : Option ℝ) (ab : Bool) :
    ((mod.type = "rigidrotation" ∨ mod.type = "rr") →
      lagrangianparcel sf mod st Nt dtOpt nlm0Opt vb iota zeta Lambda Gamma0 nu regexpo ab =
        Except.error (.exception "type=\"rigidrotation\" not yet supported")) ∧
    ((mod.type ≠ "simpleshear" ∧ mod.type ≠ "ss" ∧ mod.type ≠ "pureshear" ∧
      mod.type ≠ "ps" ∧ mod.type ≠ "rigidrotation" ∧ mod.type ≠ "rr") →
      lagrangianparcel sf mod st Nt dtOpt nlm0Opt vb iota zeta Lambda Gamma0 nu regexpo ab =
        Except.error (.valueError
          ("Mode of deformation type=\"" ++ mod.type ++ "\" not supported"))) :=
  ⟨fun h => lagr_rr sf mod st Nt dtOpt nlm0Opt vb iota zeta Lambda Gamma0 nu regexpo ab h,
   fun h => lagr_unknown sf mod st Nt dtOpt nlm0Opt vb iota zeta Lambda Gamma0 nu regexpo ab
     h.1 h.2.1 h.2.2.1 h.2.2.2.1 h.2.2.2.2.1 h.2.2.2.2.2⟩

/-- C6 witness: the two error behaviours at concrete descriptors. -/
theorem c6_witness :
    lagrangianparcel sf0 modRR 1 2 (some 1) none true none 0 none none none none false =
      Except.error (.exception "type=\"rigidrotation\" not yet supported") ∧
    lagrangianparcel sf0 modBad 1 2 (some 1) none true none 0 none none none none false =
      Except.error (.valueError
        ("Mode of deformation type=\"" ++ modBad.type ++ "\" not supported")) :=
  ⟨(c6_mode_errors sf0 modRR 1 2 (some 1) none true none 0 none none none none false).1
     (Or.inr rfl),
   (c6_mode_errors sf0 modBad 1 2 (some 1) none true none 0 none none none none false).2
     (by refine ⟨?_, ?_, ?_, ?_, ?_, ?_⟩ <;> decide)⟩

/-- C5 counterexample: omitting `nu` while supplying `regexpo` makes the call
raise a TypeError (`None * float` inside the custom regularization builder)
rather than treating the omission as "process disabled". -/
theorem c5_counterexample :
    lagrangianparcel sf0 modSS 1 2 (some 1) none true none 0 none none none (some 1) false =
      Except.error (.typeError "unsupported operand type(s) for *: NoneType and float") :=
  rfl

/-- C5 (amended): each omitted process-weight parameter among `iota`, `Lambda`,
`Gamma0` contributes the zero matrix, and an omitted `nu` contributes the zero
matrix when `regexpo` is also omitted; under those combinations the call never
raises on account of the omission.  (When `regexpo` is supplied with `nu`
omitted, the custom builder raises a TypeError instead.) -/
theorem c5_silent_defaulting (sf : SpecFab) (mod : Mode) (st : ℝ) (Nt : ℕ)
    (dtOpt : Option ℝ) (nlm0Opt : Option (CVec sf)) (vb : Bool) (zeta : ℝ) (ab : Bool)
    (hmode : mod.type = "simpleshear" ∨ mod.type = "ss" ∨
             mod.type = "pureshear" ∨ mod.type = "ps") :
    (∀ (dummy : CVec sf) (D W : Mat3), lrotOp sf dummy D W none zeta = 0) ∧
    (∀ dummy : CVec sf, cdrxOp sf dummy none = 0) ∧
    (∀ (prev : CVec sf) (S : Mat3), ddrxOp sf prev S none = 0) ∧
    (∀ (dummy : CVec sf) (D : Mat3), regOperator sf none none dummy D = Except.ok 0) ∧
    (∀ (iota Lambda Gamma0 nu regexpo : Option ℝ), (regexpo = none ∨ nu ≠ none) →
      ∃ res, lagrangianparcel sf mod st Nt dtOpt nlm0Opt vb iota zeta Lambda Gamma0
        nu regexpo ab = Except.ok res) :=
  ⟨fun _ _ _ => rfl, fun _ => rfl, fun _ _ => rfl, fun _ _ => rfl,
   fun iota Lambda Gamma0 nu regexpo hc =>
     lagr_isOk sf mod st Nt dtOpt nlm0Opt vb iota zeta Lambda Gamma0 nu regexpo ab hmode hc⟩

/-- C5 witness: the amended statement at a concrete run with all process
parameters omitted. -/
theorem c5_witness :
    ((∀ (dummy : CVec sf0) (D W : Mat3), lrotOp sf0 dummy D W none 0 = 0) ∧
     (∀ dummy : CVec sf0, cdrxOp sf0 dummy none = 0) ∧
     (∀ (prev : CVec sf0) (S : Mat3), ddrxOp sf0 prev S none = 0) ∧
     (∀ (dummy : CVec sf0) (D : Mat3), regOperator sf0 none none dummy D = Except.ok 0) ∧
     (∀ (iota Lambda Gamma0 nu regexpo : Option ℝ), (regexpo = none ∨ nu ≠ none) →
       ∃ res, lagrangianparcel sf0 modSS 1 2 (some 1) none true iota 0 Lambda Gamma0
         nu regexpo false = Except.ok res)) :=
  c5_silent_defaulting sf0 modSS 1 2 (some 1) none true 0 false (by decide)

/-- C3: with `iota`, `Lambda`, `Gamma0`, `nu` and `regexpo` all None the per-step
evolution operator is the zero matrix, and every row of the returned coefficient
history equals row 0, for every positive step count and every (or no) initial
coefficient vector. -/
theorem c3_noop_dynamics (sf : SpecFab) (mod : Mode) (st : ℝ) (Nt : ℕ)
    (dtOpt : Option ℝ) (nlm0Opt : Option (CVec sf)) (vb : Bool) (zeta : ℝ) (ab : Bool)
    (hmode : mod.type = "simpleshear" ∨ mod.type = "ss" ∨
             mod.type = "pureshear" ∨ mod.type = "ps")
    (hNt : 1 ≤ Nt) :
    ∃ res, lagrangianparcel sf mod st Nt dtOpt nlm0Opt vb none zeta none none none none ab =
        Except.ok res ∧
      (∀ (dummy prev : CVec sf) (D W S : Mat3),
        stepOperator sf (lrotOp sf dummy D W none zeta + cdrxOp sf dummy none + 0)
          none S prev = 0) ∧
      (∀ t : Fin (Nt + 1), res.nlm t = res.nlm 0) := by
  obtain ⟨res, hok⟩ := lagr_isOk sf mod st Nt dtOpt nlm0Opt vb none zeta none none none none ab
    hmode (Or.inl rfl)
  obtain ⟨dt, Mreg, hreg, htime, hnlm, hmod⟩ := lagr_ok_elim sf mod st Nt dtOpt nlm0Opt vb
    none zeta none none none none ab res hok
  have hM0 : Mreg = 0 := by
    have := hreg.symm.trans (regOperator_none_none sf (nlm0Opt.getD (isotropic sf))
      (sf.ugrad_to_D_and_W res.ugrad).1)
    injection this
  have hC : lrotOp sf (nlm0Opt.getD (isotropic sf)) (sf.ugrad_to_D_and_W res.ugrad).1
      (sf.ugrad_to_D_and_W res.ugrad).2 none zeta
      + cdrxOp sf (nlm0Opt.getD (isotropic sf)) none + Mreg = 0 := by
    simp [lrotOp, cdrxOp, hM0]
  refine ⟨res, hok, ?_, ?_⟩
  · intro dummy prev D W S
    simp [stepOperator, lrotOp, cdrxOp, ddrxOp]
  · intro t
    rw [hnlm]
    simp only
    rw [nlmHist_const_of_zero sf _ _ dt _ hC (t : ℕ),
        nlmHist_const_of_zero sf _ _ dt _ hC ((0 : Fin (Nt + 1)) : ℕ)]

/-- C3 witness: a concrete no-op run with all processes disabled leaves every
row equal to the initial row. -/
theorem c3_witness :
    ∃ res, lagrangianparcel sf0 modSS 1 2 (some 1) (some (isotropic sf0)) true none 0
        none none none none false = Except.ok res ∧
      (∀ (dummy prev : CVec sf0) (D W S : Mat3),
        stepOperator sf0 (lrotOp sf0 dummy D W none 0 + cdrxOp sf0 dummy none + 0)
          none S prev = 0) ∧
      (∀ t : Fin (2 + 1), res.nlm t = res.nlm 0) :=
  c3_noop_dynamics sf0 modSS 1 2 (some 1) (some (isotropic sf0)) true 0 false
    (by decide) (by decide)

/-- C4: the returned coefficient history has `Nt+1` rows of length
`nlm_len = (L+1)(L+2)/2`; when no initial vector is supplied, row 0 is the
isotropic vector (zeroth coefficient `1/sqrt(4*pi)`, all others exactly zero);
when a caller-supplied vector is given, it becomes row 0 verbatim, and the call
succeeds for every such vector (no validation of norm or admissibility). -/
theorem c4_state_initializer (sf : SpecFab) (mod : Mode) (st : ℝ) (Nt : ℕ)
    (dtOpt : Option ℝ) (nlm0Opt : Option (CVec sf)) (vb : Bool) (iota : Option ℝ)
    (zeta : ℝ) (Lambda Gamma0 nu regexpo : Option ℝ) (ab : Bool)
    (hmode : mod.type = "simpleshear" ∨ mod.type = "ss" ∨
             mod.type = "pureshear" ∨ mod.type = "ps")
    (hcompat : regexpo = none ∨ nu ≠ none) :
    ∃ res : ParcelResult sf Nt,
      lagrangianparcel sf mod st Nt dtOpt nlm0Opt vb iota zeta Lambda Gamma0 nu regexpo ab =
        Except.ok res ∧
      (nlm0Opt = none → res.nlm 0 =
        fun i : Fin sf.nlm_len =>
          if (i : ℕ) = 0 then ((1 / Real.sqrt (4 * Real.pi) : ℝ) : ℂ) else 0) ∧
      (∀ v : CVec sf, nlm0Opt = some v → res.nlm 0 = v) ∧
      sf.nlm_len = (sf.Lcap + 1) * (sf.Lcap + 2) / 2 := by
  obtain ⟨res, hok⟩ := lagr_isOk sf mod st Nt dtOpt nlm0Opt vb iota zeta Lambda Gamma0
    nu regexpo ab hmode hcompat
  obtain ⟨dt, Mreg, hreg, htime, hnlm, hmod⟩ := lagr_ok_elim sf mod st Nt dtOpt nlm0Opt vb
    iota zeta Lambda Gamma0 nu regexpo ab res hok
  have h0 : res.nlm 0 = nlm0Opt.getD (isotropic sf) := by
    rw [hnlm]
    simp [nlmHist]
  refine ⟨res, hok, ?_, ?_, rfl⟩
  · intro h
    rw [h0, h]
    rfl
  · intro v h
    rw [h0, h]
    rfl

/-- C4 witness: a run with an explicit (arbitrary, unvalidated) initial vector
and one with the default isotropic initialization. -/
theorem c4_witness :
    ∃ res : ParcelResult sf0 2,
      lagrangianparcel sf0 modSS 1 2 (some 1) (some 0) true none 0 none none none none
        false = Except.ok res ∧
      (some (0 : CVec sf0) = none → res.nlm 0 =
        fun i : Fin sf0.nlm_len =>
          if (i : ℕ) = 0 then ((1 / Real.sqrt (4 * Real.pi) : ℝ) : ℂ) else 0) ∧
      (∀ v : CVec sf0, some (0 : CVec sf0) = some v → res.nlm 0 = v) ∧
      sf0.nlm_len = (sf0.Lcap + 1) * (sf0.Lcap + 2) / 2 :=
  c4_state_initializer sf0 modSS 1 2 (some 1) (some 0) true none 0 none none none none
    false (by decide) (Or.inl rfl)

/-- C7: with `dt` not supplied, the step size is the library strain-to-time
conversion of the target strain (at the mode's time scale `T`) divided by `Nt`,
so `dt * Nt` recovers the conversion exactly, and the returned time stamps are
`time k = dt * k` for all `k` in `0..Nt`. -/
theorem c7_derived_dt_time_stamps (sf : SpecFab) (mod : Mode) (st : ℝ) (Nt : ℕ)
    (nlm0Opt : Option (CVec sf)) (vb : Bool) (iota : Option ℝ) (zeta : ℝ)
    (Lambda Gamma0 nu regexpo : Option ℝ) (ab : Bool)
    (hNt : 1 ≤ Nt) (hcompat : regexpo = none ∨ nu ≠ none) :
    ((mod.type = "simpleshear" ∨ mod.type = "ss") →
      ∃ res, lagrangianparcel sf mod st Nt none nlm0Opt vb iota zeta Lambda Gamma0
          nu regexpo ab = Except.ok res ∧
        (∀ k : Fin (Nt + 1), res.time k =
          sf.simpleshear_gamma_to_t st (mod.T.getD 1) / (Nt : ℝ) * ((k : ℕ) : ℝ)) ∧
        sf.simpleshear_gamma_to_t st (mod.T.getD 1) / (Nt : ℝ) * (Nt : ℝ) =
          sf.simpleshear_gamma_to_t st (mod.T.getD 1)) ∧
    ((mod.type = "pureshear" ∨ mod.type = "ps") →
      ∃ res, lagrangianparcel sf mod st Nt none nlm0Opt vb iota zeta Lambda Gamma0
          nu regexpo ab = Except.ok res ∧
        (∀ k : Fin (Nt + 1), res.time k =
          sf.pureshear_strainii_to_t st (mod.T.getD 1) / (Nt : ℝ) * ((k : ℕ) : ℝ)) ∧
        sf.pureshear_strainii_to_t st (mod.T.getD 1) / (Nt : ℝ) * (Nt : ℝ) =
          sf.pureshear_strainii_to_t st (mod.T.getD 1)) := by
  have hNt0 : (Nt : ℝ) ≠ 0 := Nat.cast_ne_zero.mpr (by omega)
  constructor
  · intro h
    rw [lagr_ss sf mod st Nt none nlm0Opt vb iota zeta Lambda Gamma0 nu regexpo ab h]
    obtain ⟨M, hM⟩ := regOperator_isOk sf nu regexpo (nlm0Opt.getD (isotropic sf)) _ hcompat
    rw [integrate_ok sf mod Nt _ _ _ nlm0Opt iota zeta Lambda Gamma0 nu regexpo M hM]
    exact ⟨_, rfl, fun k => rfl, div_mul_cancel₀ _ hNt0⟩
  · intro h
    rw [lagr_ps sf mod st Nt none nlm0Opt vb iota zeta Lambda Gamma0 nu regexpo ab h]
    obtain ⟨M, hM⟩ := regOperator_isOk sf nu regexpo (nlm0Opt.getD (isotropic sf)) _ hcompat
    rw [integrate_ok sf mod Nt _ _ _ nlm0Opt iota zeta Lambda Gamma0 nu regexpo M hM]
    exact ⟨_, rfl, fun k => rfl, div_mul_cancel₀ _ hNt0⟩

/-- C7 witness: the derived step size and time stamps at a concrete
simple-shear run. -/
theorem c7_witness :
    ∃ res, lagrangianparcel sf0 modSS 1 4 none none true none 0 none none
        none none false = Except.ok res ∧
      (∀ k : Fin (4 + 1), res.time k =
        sf0.simpleshear_gamma_to_t 1 (modSS.T.getD 1) / ((4 : ℕ) : ℝ) * ((k : ℕ) : ℝ)) ∧
      sf0.simpleshear_gamma_to_t 1 (modSS.T.getD 1) / ((4 : ℕ) : ℝ) * ((4 : ℕ) : ℝ) =
        sf0.simpleshear_gamma_to_t 1 (modSS.T.getD 1) :=
  (c7_derived_dt_time_stamps sf0 modSS 1 4 none true none 0 none none none none false
    (by decide) (Or.inl rfl)).1 (Or.inr rfl)

/-- C8 counterexample: calling the integrator on a descriptor without the
optional time scale `T` hands back the caller's descriptor with `T` inserted
(set to 1): the mode record visible to the caller after the call differs from
the one passed in, so the call is not free of side effects on its inputs. -/
theorem c8_counterexample :
    Except.map (fun r : ParcelResult sf0 1 => r.modFinal)
        (lagrangianparcel sf0 modNoT 1 1 (some 1) none true none 0 none none none none
          false) = Except.ok { modNoT with T := some 1 } ∧
    modNoT.T = none ∧
    ({ modNoT with T := some 1 } : Mode) ≠ modNoT :=
  ⟨rfl, rfl, fun h => by
    have := congrArg Mode.T h
    simp [modNoT] at this⟩

/-- C8 (amended): the trajectory derivation is a pure function of its inputs and
the caller's mode descriptor is returned unmodified — except that when the
optional time scale `T` is absent the call writes the default `T = 1` into the
caller's descriptor; a descriptor that already carries `T` is unchanged. -/
theorem c8_mode_descriptor_mutation (sf : SpecFab) (mod : Mode) (st : ℝ) (Nt : ℕ)
    (dtOpt : Option ℝ) (nlm0Opt : Option (CVec sf)) (vb : Bool) (iota : Option ℝ)
    (zeta : ℝ) (Lambda Gamma0 nu regexpo : Option ℝ) (ab : Bool)
    (hmode : mod.type = "simpleshear" ∨ mod.type = "ss" ∨
             mod.type = "pureshear" ∨ mod.type = "ps")
    (hcompat : regexpo = none ∨ nu ≠ none) :
    ∃ res, lagrangianparcel sf mod st Nt dtOpt nlm0Opt vb iota zeta Lambda Gamma0 nu
        regexpo ab = Except.ok res ∧
      res.modFinal = { mod with T := some (mod.T.getD 1) } ∧
      (∀ t0 : ℝ, mod.T = some t0 → res.modFinal = mod) ∧
      (mod.T = none → res.modFinal = { mod with T := some 1 }) := by
  obtain ⟨res, hok⟩ := lagr_isOk sf mod st Nt dtOpt nlm0Opt vb iota zeta Lambda Gamma0
    nu regexpo ab hmode hcompat
  obtain ⟨dt, Mreg, hreg, htime, hnlm, hmod⟩ := lagr_ok_elim sf mod st Nt dtOpt nlm0Opt vb
    iota zeta Lambda Gamma0 nu regexpo ab res hok
  refine ⟨res, hok, hmod, ?_, ?_⟩
  · intro t0 h
    rw [hmod, h]
    cases mod with
    | mk ty pl ax r T =>
      simp at h
      simp [h]
  · intro h
    rw [hmod, h]
    rfl

/-- C8 witness: the amended statement at a concrete descriptor carrying `T`. -/
theorem c8_witness :
    ∃ res, lagrangianparcel sf0 modSS 1 2 (some 1) none true none 0 none none none
        none false = Except.ok res ∧
      res.modFinal = { modSS with T := some (modSS.T.getD 1) } ∧
      (∀ t0 : ℝ, modSS.T = some t0 → res.modFinal = modSS) ∧
      (modSS.T = none → res.modFinal = { modSS with T := some 1 }) :=
  c8_mode_descriptor_mutation sf0 modSS 1 2 (some 1) none true none 0 none none none
    none false (by decide) (Or.inl rfl)

/-- C1: every successful run satisfies, for each `t` in `1..Nt`, the forward-Euler
recurrence `nlm[t] = nlm[t-1] + dt * (M . nlm[t-1])`, where `M` is the sum of the
constant lattice-rotation, CDRX and regularization operators plus — exactly when
`Gamma0` is provided — `Gamma0` times the library DDRX operator re-evaluated at
the previous state `nlm[t-1]` and the coaxial-stress proxy `S = D`. -/
theorem c1_forward_euler_recurrence (sf : SpecFab) (mod : Mode) (st : ℝ) (Nt : ℕ)
    (dtOpt : Option ℝ) (nlm0Opt : Option (CVec sf)) (vb : Bool) (iota : Option ℝ)
    (zeta : ℝ) (Lambda Gamma0 nu regexpo : Option ℝ) (ab : Bool)
    (res : ParcelResult sf Nt)
    (hok : lagrangianparcel sf mod st Nt dtOpt nlm0Opt vb iota zeta Lambda Gamma0 nu
      regexpo ab = Except.ok res) :
    ∃ Mreg : CMat sf,
      regOperator sf nu regexpo (res.nlm 0) (sf.ugrad_to_D_and_W res.ugrad).1 =
        Except.ok Mreg ∧
      ∀ t : ℕ, ∀ ht : t < Nt,
        res.nlm ⟨t + 1, by omega⟩ =
          res.nlm ⟨t, by omega⟩ +
            ((res.time ⟨1, by omega⟩ : ℝ) : ℂ) •
              Matrix.mulVec
                (lrotOp sf (res.nlm 0) (sf.ugrad_to_D_and_W res.ugrad).1
                    (sf.ugrad_to_D_and_W res.ugrad).2 iota zeta
                  + cdrxOp sf (res.nlm 0) Lambda + Mreg
                  + ddrxOp sf (res.nlm ⟨t, by omega⟩) (sf.ugrad_to_D_and_W res.ugrad).1
                      Gamma0)
                (res.nlm ⟨t, by omega⟩) := by
  obtain ⟨dt, Mreg, hreg, htime, hnlm, hmod⟩ := lagr_ok_elim sf mod st Nt dtOpt nlm0Opt vb
    iota zeta Lambda Gamma0 nu regexpo ab res hok
  have h0 : res.nlm 0 = nlm0Opt.getD (isotropic sf) := by
    rw [hnlm]
    simp [nlmHist]
  refine ⟨Mreg, ?_, ?_⟩
  · rw [h0]
    exact hreg
  · intro t ht
    simp only [h0, hnlm, htime]
    norm_num
    rfl

/-- C1 witness: the recurrence at a concrete one-step run. -/
theorem c1_witness :
    (lagrangianparcel sf0 modSS 1 1 (some 1) none true none 0 none none none none false =
      Except.ok res0) ∧
    (∃ Mreg : CMat sf0,
      regOperator sf0 none none (res0.nlm 0) (sf0.ugrad_to_D_and_W res0.ugrad).1 =
        Except.ok Mreg ∧
      ∀ t : ℕ, ∀ ht : t < 1,
        res0.nlm ⟨t + 1, by omega⟩ =
          res0.nlm ⟨t, by omega⟩ +
            ((res0.time ⟨1, by omega⟩ : ℝ) : ℂ) •
              Matrix.mulVec
                (lrotOp sf0 (res0.nlm 0) (sf0.ugrad_to_D_and_W res0.ugrad).1
                    (sf0.ugrad_to_D_and_W res0.ugrad).2 none 0
                  + cdrxOp sf0 (res0.nlm 0) none + Mreg
                  + ddrxOp sf0 (res0.nlm ⟨t, by omega⟩)
                      (sf0.ugrad_to_D_and_W res0.ugrad).1 none)
                (res0.nlm ⟨t, by omega⟩)) :=
  ⟨rfl, c1_forward_euler_recurrence sf0 modSS 1 1 (some 1) none true none 0 none none
    none none false res0 rfl⟩
